import Mathlib

/-
Verification of the PolicyEngine compute/cache layer.

The development embeds, as executable Lean definitions:
  - policyengine_api/economy_api/compute_api.py
      (score_policy_reform_against_baseline, ensure_economy_computed,
       set_reform_impact_data),
  - policyengine_api/endpoints/policy.py
      (set_policy, get_current_law_policy_id),
  - policyengine_api/endpoints/computed_household.py
      (get_household_under_policy, calculate, get_requested_computations).

External collaborators (the simulation engine `compute_economy`, the
comparator `compare_economic_outputs`, the per-slot household simulation)
are parameters of type `Except String _`, where `Except.error e` models a
raised Python exception with message `e`.  The persistent store
(`database.get_in_table` / `database.set_in_table`), whose implementation
is not part of the sources, is modelled from the specification's
CacheStore contract: `get` returns the first row matching all key fields;
`set` (upsert) atomically updates the first matching row, else inserts.

Python dicts preserve insertion order, so an `options` mapping is
modelled as an association list in insertion order, and `json.dumps` of
such a dict as the corresponding order-sensitive serialization.
-/

namespace PEApi

/-- Modelled from the spec: the engine/API version tag appended to every
cache key (policyengine_api.constants.VERSION, not in the sources).  Its
concrete value is immaterial: it is a single constant used uniformly. -/
def VERSION : String := "1.0.0"

/-- JSON text of a quoted string (escaping not modelled; keys and values
in option mappings are plain strings). -/
def jsonStr (s : String) : String := "\"" ++ s ++ "\""

/-- `json.dumps` of a string-to-string dict, in insertion order, exactly
as `json.dumps(options)` renders it (no `sort_keys`). -/
def dumpsOptions (opts : List (String × String)) : String :=
  "\x7b" ++ String.intercalate (", ") (opts.map (fun kv => jsonStr kv.1 ++ ": " ++ jsonStr kv.2)) ++ "\x7d"

/-- JSON text of the empty object, `json.dumps` of the empty dict. -/
def emptyObjectJson : String := "\x7b\x7d"

/-- `options.pop(k, None)`: the looked-up value and the dict without key
`k` (request-argument dicts have unique keys). -/
def popKey (k : String) (l : List (String × String)) : Option String × List (String × String) :=
  (List.lookup k l, l.filter (fun kv => kv.1 != k))

/-- Update the first element satisfying `p` (the store holds at most one
row per key, so the first match is the row). -/
def updateFirst {r : Type} (p : r → Bool) (f : r → r) : List r → List r
  | [] => []
  | x :: xs => if p x then f x :: xs else x :: updateFirst p f xs

/-- Key fields of the `economy` table. -/
structure EconKey where
  country_id : String
  policy_id : Nat
  region : String
  time_period : String
  options_json : String
  api_version : String
  deriving DecidableEq

/-- A row of the `economy` table. -/
structure EconRow (α : Type) where
  key : EconKey
  economy_json : α
  status : String
  message : Option String
  deriving DecidableEq

/-- Key fields of the `reform_impact` table. -/
structure RIKey where
  country_id : String
  baseline_policy_id : Nat
  reform_policy_id : Nat
  region : String
  time_period : String
  options_json : String
  api_version : String
  deriving DecidableEq

/-- A row of the `reform_impact` table. -/
structure RIRow (α : Type) where
  key : RIKey
  reform_impact_json : α
  status : String
  message : Option String
  deriving DecidableEq

/-- A row of the `policy` table. -/
structure PolicyRow where
  id : Nat
  country_id : String
  policy_hash : String
  policy_json : String
  label : Option String
  api_version : String
  deriving DecidableEq

/-- A household definition: entity-plural to entity to variable to period
to an optional value (`none` marks a requested, not yet computed slot). -/
abbrev Household (β : Type) := List (String × List (String × List (String × List (String × Option β))))

/-- A requested computation: (entity_plural, entity_id, variable_name, period). -/
abbrev Slot := String × String × String × String

instance hhDecEq1 {β : Type} [DecidableEq β] : DecidableEq (List (String × Option β)) :=
  inferInstance

instance hhDecEq2 {β : Type} [DecidableEq β] : DecidableEq (List (String × List (String × Option β))) :=
  inferInstance

instance hhDecEq3 {β : Type} [DecidableEq β] : DecidableEq (List (String × List (String × List (String × Option β)))) :=
  inferInstance

instance hhDecEq4 {β : Type} [DecidableEq β] : DecidableEq (Household β) :=
  inferInstance

/-- A row of the `household` table. -/
structure HouseholdRow (β : Type) where
  country_id : String
  id : Nat
  household_json : Household β
  deriving DecidableEq

/-- Key fields of the `computed_household` table. -/
structure CHKey where
  country_id : String
  household_id : Nat
  policy_id : Nat
  api_version : String
  deriving DecidableEq

/-- A row of the `computed_household` table. -/
structure CHRow (β : Type) where
  key : CHKey
  computed_household_json : Household β
  deriving DecidableEq

/-- The persistent store: one list of rows per table. -/
structure DB (α β : Type) where
  economy : List (EconRow α)
  reform_impact : List (RIRow α)
  policy : List PolicyRow
  household : List (HouseholdRow β)
  computed_household : List (CHRow β)
  deriving DecidableEq

/-- Modelled from the spec: `database.get_in_table("economy", ...)` —
first row matching all key fields. -/
def DB.getEconomy {α β : Type} (db : DB α β) (k : EconKey) : Option (EconRow α) :=
  db.economy.find? (fun r => r.key == k)

/-- Modelled from the spec: `database.set_in_table("economy", match, values)`
— atomic upsert: update the value fields of the first row matching the
key fields, else insert a new row. -/
def DB.upsertEconomy {α β : Type} (db : DB α β) (k : EconKey) (json : α) (status : String) (message : Option String) : DB α β :=
  let p : EconRow α → Bool := fun r => r.key == k
  let f : EconRow α → EconRow α := fun r => { r with economy_json := json, status := status, message := message }
  if (db.economy.find? p).isSome then
    { db with economy := updateFirst p f db.economy }
  else
    { db with economy := db.economy ++ [⟨k, json, status, message⟩] }

/-- Modelled from the spec: `database.get_in_table("reform_impact", ...)`. -/
def DB.getRI {α β : Type} (db : DB α β) (k : RIKey) : Option (RIRow α) :=
  db.reform_impact.find? (fun r => r.key == k)

/-- Modelled from the spec: `database.set_in_table("reform_impact", match, values)`. -/
def DB.upsertRI {α β : Type} (db : DB α β) (k : RIKey) (json : α) (status : String) (message : Option String) : DB α β :=
  let p : RIRow α → Bool := fun r => r.key == k
  let f : RIRow α → RIRow α := fun r => { r with reform_impact_json := json, status := status, message := message }
  if (db.reform_impact.find? p).isSome then
    { db with reform_impact := updateFirst p f db.reform_impact }
  else
    { db with reform_impact := db.reform_impact ++ [⟨k, json, status, message⟩] }

/-- The match predicate of `set_policy`'s upsert: `policy_hash`, plus `id`
when a policy id was supplied.  Note that `country_id` is NOT a match
field in the source (it is among the value fields). -/
def policyMatches (h : String) (mid : Option Nat) (r : PolicyRow) : Bool :=
  r.policy_hash == h && (match mid with | none => true | some i => r.id == i)

/-- Next auto-increment id for the `policy` table. -/
def DB.nextPolicyId {α β : Type} (db : DB α β) : Nat :=
  (db.policy.foldl (fun m r => max m r.id) 0) + 1

/-- Modelled from the spec: `database.set_in_table("policy", match, values,
auto_increment="id")` — update the first row matching `policy_hash` (and
`id` if supplied), overwriting the value fields `country_id`,
`policy_json`, `label`, `api_version`; else insert with a fresh id. -/
def DB.upsertPolicy {α β : Type} (db : DB α β) (h : String) (mid : Option Nat) (country_id : String) (policy_json : String) (label : Option String) : DB α β :=
  let f : PolicyRow → PolicyRow := fun r => { r with country_id := country_id, policy_json := policy_json, label := label, api_version := VERSION }
  if db.policy.any (policyMatches h mid) then
    { db with policy := updateFirst (policyMatches h mid) f db.policy }
  else
    { db with policy := db.policy ++ [⟨db.nextPolicyId, country_id, h, policy_json, label, VERSION⟩] }

/-- Modelled from the spec: `database.get_in_table("policy", country_id=..., policy_hash=...)`. -/
def DB.getPolicyByHash {α β : Type} (db : DB α β) (country_id : String) (h : String) : Option PolicyRow :=
  db.policy.find? (fun r => r.country_id == country_id && r.policy_hash == h)

/-- Modelled from the spec: `database.get_in_table("policy", country_id=..., id=...)`. -/
def DB.getPolicyById {α β : Type} (db : DB α β) (country_id : String) (i : Nat) : Option PolicyRow :=
  db.policy.find? (fun r => r.country_id == country_id && r.id == i)

/-- Modelled from the spec: `database.get_in_table("household", country_id=..., id=...)`. -/
def DB.getHousehold {α β : Type} (db : DB α β) (country_id : String) (i : Nat) : Option (HouseholdRow β) :=
  db.household.find? (fun r => r.country_id == country_id && r.id == i)

/-- Modelled from the spec: `database.get_in_table("computed_household", ...)`. -/
def DB.getCH {α β : Type} (db : DB α β) (k : CHKey) : Option (CHRow β) :=
  db.computed_household.find? (fun r => r.key == k)

/-- Modelled from the spec: `database.set_in_table("computed_household", match, values)`. -/
def DB.upsertCH {α β : Type} (db : DB α β) (k : CHKey) (json : Household β) : DB α β :=
  let p : CHRow β → Bool := fun r => r.key == k
  let f : CHRow β → CHRow β := fun r => { r with computed_household_json := json }
  if (db.computed_household.find? p).isSome then
    { db with computed_household := updateFirst p f db.computed_household }
  else
    { db with computed_household := db.computed_household ++ [⟨k, json⟩] }

/-- External collaborators of the compute API, at their interface
boundary: the simulation engine `compute_economy`, the comparator
`compare_economic_outputs`, and the JSON value of the empty object
(what `json.dumps` of an empty dict stores).  `Except.error e` models a
raised exception with message `e`. -/
structure Env (α : Type) where
  computeEconomy : String → Nat → String → String → List (String × String) → Except String α
  compareOutputs : α → α → Except String α
  emptyObj : α

/-- Program state threaded through the compute API: the store, the number
of simulator (`compute_economy`) invocations, the number of comparator
(`compare_economic_outputs`) invocations, and per-table write logs
(key and written status, in write order). -/
structure St (α β : Type) where
  db : DB α β
  simCalls : Nat
  cmpCalls : Nat
  econLog : List (EconKey × String)
  riLog : List (RIKey × String)
  deriving DecidableEq

/-- `countries = dict(uk=uk, us=us)` of compute_api.py. -/
def countries (c : String) : Bool := c == "uk" || c == "us"

/-- The economy-table key assembled by `ensure_economy_computed` and
`set_reform_impact_data` (the `options_json` component is
`json.dumps(options)`). -/
def econKey (country_id : String) (policy_id : Nat) (region : String) (time_period : String) (options : List (String × String)) : EconKey :=
  ⟨country_id, policy_id, region, time_period, dumpsOptions options, VERSION⟩

/-- The reform-impact-table key assembled by the compute API. -/
def riKey (country_id : String) (baseline_policy_id : Nat) (reform_policy_id : Nat) (region : String) (time_period : String) (options : List (String × String)) : RIKey :=
  ⟨country_id, baseline_policy_id, reform_policy_id, region, time_period, dumpsOptions options, VERSION⟩

/-- compute_api.py `ensure_economy_computed`: look the economy up; when
absent, run `compute_economy` and write a single terminal row, `ok` with
the result on success, `error` with the exception's message on failure
(the exception is caught).  No `computing` placeholder is written. -/
def ensure_economy_computed {α β : Type} (env : Env α) (st : St α β) (country_id : String) (policy_id : Nat) (region : String) (time_period : String) (options : List (String × String)) : St α β :=
  match st.db.getEconomy (econKey country_id policy_id region time_period options) with
  | some _ => st
  | none =>
    match env.computeEconomy country_id policy_id region time_period options with
    | Except.ok result =>
        { st with db := st.db.upsertEconomy (econKey country_id policy_id region time_period options) result ("ok") none,
                  simCalls := st.simCalls + 1,
                  econLog := st.econLog ++ [(econKey country_id policy_id region time_period options, "ok")] }
    | Except.error e =>
        { st with db := st.db.upsertEconomy (econKey country_id policy_id region time_period options) env.emptyObj ("error") (some e),
                  simCalls := st.simCalls + 1,
                  econLog := st.econLog ++ [(econKey country_id policy_id region time_period options, "error")] }

/-- The error message written by `set_reform_impact_data` when a
prerequisite economy is not `ok` (exact source text). -/
def depFailMsg : String := "Baseline or reform economy computation failed."

/-- Arguments handed to the `set_reform_impact_data` worker thread. -/
structure ThreadArgs where
  baseline_policy_id : Nat
  policy_id : Nat
  country_id : String
  region : String
  time_period : String
  options : List (String × String)
  deriving DecidableEq

/-- Economy key of the baseline prerequisite. -/
def ThreadArgs.bkey (a : ThreadArgs) : EconKey :=
  econKey a.country_id a.baseline_policy_id a.region a.time_period a.options

/-- Economy key of the reform prerequisite. -/
def ThreadArgs.rkey (a : ThreadArgs) : EconKey :=
  econKey a.country_id a.policy_id a.region a.time_period a.options

/-- Reform-impact key of the resolution. -/
def ThreadArgs.ikey (a : ThreadArgs) : RIKey :=
  riKey a.country_id a.baseline_policy_id a.policy_id a.region a.time_period a.options

/-- The `for required_policy_id in [baseline_policy_id, policy_id]` loop of
`set_reform_impact_data`: ensure both prerequisite economies. -/
def ensureBoth {α β : Type} (env : Env α) (st : St α β) (a : ThreadArgs) : St α β :=
  ensure_economy_computed env
    (ensure_economy_computed env st a.country_id a.baseline_policy_id a.region a.time_period a.options)
    a.country_id a.policy_id a.region a.time_period a.options

/-- compute_api.py `set_reform_impact_data`: ensure both economies, read
them back, and either write a terminal `error` reform-impact row (when a
prerequisite is not `ok`) or call the comparator and write a terminal
`ok` row.  The comparator call is NOT wrapped in a try block in the
source: a comparator exception propagates (`Except.error`).  A missing
read-back row would be subscripted unguarded (`Except.error` models the
`TypeError`). -/
def set_reform_impact_data {α β : Type} (env : Env α) (st : St α β) (a : ThreadArgs) : Except String (St α β) :=
  match (ensureBoth env st a).db.getEconomy a.bkey, (ensureBoth env st a).db.getEconomy a.rkey with
  | some baseline_economy, some reform_economy =>
    if baseline_economy.status != "ok" || reform_economy.status != "ok" then
      Except.ok { ensureBoth env st a with
        db := (ensureBoth env st a).db.upsertRI a.ikey env.emptyObj ("error") (some depFailMsg),
        riLog := (ensureBoth env st a).riLog ++ [(a.ikey, "error")] }
    else
      match env.compareOutputs baseline_economy.economy_json reform_economy.economy_json with
      | Except.ok impact =>
          Except.ok { ensureBoth env st a with
            db := (ensureBoth env st a).db.upsertRI a.ikey impact ("ok") none,
            cmpCalls := (ensureBoth env st a).cmpCalls + 1,
            riLog := (ensureBoth env st a).riLog ++ [(a.ikey, "ok")] }
      | Except.error e => Except.error e
  | _, _ => Except.error ("TypeError: NoneType object is not subscriptable")

/-- policy.py `get_current_law_policy_id`: id of the policy row of the
given country whose hash is the hash of the empty reform; `none` models
the `TypeError` raised by the unguarded `fetchone()[0]` when no such row
exists. -/
def get_current_law_policy_id {α β : Type} (hash_object : String → String) (db : DB α β) (country_id : String) : Option Nat :=
  (db.policy.find? (fun r => r.country_id == country_id && r.policy_hash == hash_object emptyObjectJson)).map (fun r => r.id)

/-- Responses of the `/compare` endpoint: an HTTP error response, or the
returned dict (which carries only a `status` field in the source). -/
inductive Resp where
  | httpError (message : String) (code : Nat)
  | statusDict (status : String)
  deriving DecidableEq

/-- compute_api.py `score_policy_reform_against_baseline` (the handler's
own, synchronous part): pop region and time period off the request args,
validate, resolve the baseline (current law when absent), look the
reform-impact row up; when absent, write the `computing` placeholder and
return the arguments for the worker thread.  The returned dict is always
`status: computing`.  `Except.error` models an uncaught exception. -/
def score_policy_reform_against_baseline {α β : Type} (env : Env α) (hash_object : String → String) (st : St α β) (country_id : String) (policy_id : Nat) (baseline_policy_id : Option Nat) (args : List (String × String)) : Except String (Resp × St α β × Option ThreadArgs) :=
  let p1 := popKey ("region") args
  let p2 := popKey ("time_period") p1.2
  let options := p2.2
  match p1.1 with
  | none => Except.ok (Resp.httpError ("Region not specified.") 400, st, none)
  | some region =>
    match p2.1 with
    | none => Except.ok (Resp.httpError ("Time period not specified.") 400, st, none)
    | some time_period =>
      if countries country_id = false then
        Except.ok (Resp.httpError ("Country " ++ country_id ++ " not found.") 404, st, none)
      else
        match (match baseline_policy_id with
               | some b => some b
               | none => get_current_law_policy_id hash_object st.db country_id) with
        | none => Except.error ("TypeError: NoneType object is not subscriptable")
        | some bpid =>
          let ik := riKey country_id bpid policy_id region time_period options
          match st.db.getRI ik with
          | some _ => Except.ok (Resp.statusDict ("computing"), st, none)
          | none =>
            let st1 := { st with
              db := st.db.upsertRI ik env.emptyObj ("computing") none,
              riLog := st.riLog ++ [(ik, "computing")] }
            Except.ok (Resp.statusDict ("computing"), st1,
              some ⟨bpid, policy_id, country_id, region, time_period, options⟩)

/-- A full `/compare` request under the single-worker schedule: the
handler runs, and when it spawned the worker thread, the worker runs to
completion. -/
def compare_request {α β : Type} (env : Env α) (hash_object : String → String) (st : St α β) (country_id : String) (policy_id : Nat) (baseline_policy_id : Option Nat) (args : List (String × String)) : Except String (Resp × St α β) :=
  match score_policy_reform_against_baseline env hash_object st country_id policy_id baseline_policy_id args with
  | Except.error e => Except.error e
  | Except.ok (resp, st1, none) => Except.ok (resp, st1)
  | Except.ok (resp, st1, some ta) =>
    match set_reform_impact_data env st1 ta with
    | Except.ok st2 => Except.ok (resp, st2)
    | Except.error e => Except.error e

/-- policy.py `set_policy`: hash the definition, upsert with match fields
`policy_hash` (and `id` when supplied) — note: NOT `country_id` — then
read the id back by `(country_id, policy_hash)`.  Returns the updated
store and the returned policy id (`Except.error` models the invalid
country response or the unguarded subscript of a missing read-back). -/
def set_policy {α β : Type} (hash_object : String → String) (db : DB α β) (country_id : String) (policy_id : Option Nat) (policy_json : String) (label : Option String) : DB α β × Except String Nat :=
  if countries country_id = false then
    (db, Except.error ("Country " ++ country_id ++ " not found."))
  else
    let h := hash_object policy_json
    let db1 := db.upsertPolicy h policy_id country_id policy_json label
    match db1.getPolicyByHash country_id h with
    | some r => (db1, Except.ok r.id)
    | none => (db1, Except.error ("TypeError: NoneType object is not subscriptable"))

/-- Update the value at the first occurrence of key `k` in an association
list (Python dict item assignment on an existing key). -/
def updateA {v : Type} (k : String) (f : v → v) : List (String × v) → List (String × v)
  | [] => []
  | kv :: rest => if kv.1 == k then (kv.1, f kv.2) :: rest else kv :: updateA k f rest

/-- `household[ep][eid][var][period] = value` on an existing slot. -/
def setSlot {β : Type} (h : Household β) (s : Slot) (value : β) : Household β :=
  updateA s.1 (updateA s.2.1 (updateA s.2.2.1 (updateA s.2.2.2 (fun _ => some value)))) h

/-- Read a slot: `some w` when the full path exists (with `w` the stored
optional value), `none` when some path segment is missing. -/
def getSlot {β : Type} (h : Household β) (s : Slot) : Option (Option β) :=
  (((List.lookup s.1 h).bind (List.lookup s.2.1)).bind (List.lookup s.2.2.1)).bind (List.lookup s.2.2.2)

/-- computed_household.py `get_requested_computations`: the `*/*/*/*`
paths of the household whose stored value is `None`, in traversal
order. -/
def get_requested_computations {β : Type} (household : Household β) : List Slot :=
  household.flatMap (fun ep =>
    ep.2.flatMap (fun ent =>
      ent.2.flatMap (fun vr =>
        vr.2.filterMap (fun pv =>
          match pv.2 with
          | none => some (ep.1, ent.1, vr.1, pv.1)
          | some _ => none))))

/-- computed_household.py `calculate`: collect the requested slots of the
incoming household, then attempt each in order through the per-slot
simulation (`simulation.calculate` plus the entity/enum/axes result
extraction, an external collaborator modelled as `computeSlot`); a slot
whose computation raises is skipped (`try ... except: pass`), every other
slot is still attempted. -/
def calculate {β : Type} (computeSlot : Slot → Except String β) (household : Household β) : Household β :=
  (get_requested_computations household).foldl
    (fun acc s =>
      match computeSlot s with
      | Except.ok value => setSlot acc s value
      | Except.error _ => acc)
    household

/-- Result dicts of `get_household_under_policy`. -/
inductive HResult (β : Type) where
  | ok (result : Household β)
  | error (message : String)
  deriving DecidableEq

/-- computed_household.py `get_household_under_policy`: return the cached
computed household when present; otherwise load the household and the
policy (error dict when either is missing), compute the household under
the policy's reform (`sim policy_json` is the external simulation,
per-slot), store it in `computed_household`, and return it with status
ok. -/
def get_household_under_policy {α β : Type} (sim : String → Slot → Except String β) (db : DB α β) (country_id : String) (household_id : Nat) (policy_id : Nat) : DB α β × HResult β :=
  match db.getCH ⟨country_id, household_id, policy_id, VERSION⟩ with
  | some r => (db, HResult.ok r.computed_household_json)
  | none =>
    match db.getHousehold country_id household_id with
    | none => (db, HResult.error ("Household " ++ toString household_id ++ " not found in " ++ country_id))
    | some household_data =>
      match db.getPolicyById country_id policy_id with
      | none => (db, HResult.error ("Policy " ++ toString policy_id ++ " not found in " ++ country_id))
      | some policy =>
        (db.upsertCH ⟨country_id, household_id, policy_id, VERSION⟩ (calculate (sim policy.policy_json) household_data.household_json),
         HResult.ok (calculate (sim policy.policy_json) household_data.household_json))

/-- Concrete collaborator set used by closed instances: the simulator
returns 100 plus the policy id, the comparator pairs its inputs as
1000 * baseline + reform, the empty JSON object is 0. -/
def envOkN : Env Nat := ⟨fun _ p _ _ _ => Except.ok (100 + p), fun b r => Except.ok (1000 * b + r), 0⟩

/-- Concrete collaborator set whose simulator raises for policy id 1. -/
def envErrB : Env Nat :=
  ⟨fun _ p _ _ _ => if p == 1 then Except.error ("sim failed") else Except.ok (100 + p),
   fun b r => Except.ok (1000 * b + r), 0⟩

/-- Concrete collaborator set whose comparator raises. -/
def envCmpErr : Env Nat :=
  ⟨fun _ p _ _ _ => Except.ok (100 + p), fun _ _ => Except.error ("comparator boom"), 0⟩

/-- Concrete content-hash instantiation (injective on definitions). -/
def hashId : String → String := fun s => s

/-- The empty store. -/
def dbEmpty : DB Nat Nat := ⟨[], [], [], [], []⟩

/-- The empty program state. -/
def stEmpty : St Nat Nat := ⟨dbEmpty, 0, 0, [], []⟩

/-- Concrete request arguments: region and time period only. -/
def argsNat : List (String × String) := [("region", "national"), ("time_period", "2024")]

/-- Concrete worker-thread arguments: baseline 1, reform 2, UK. -/
def taUK : ThreadArgs := ⟨1, 2, "uk", "national", "2024", []⟩

/-- Reform-impact key of the concrete UK scenario. -/
def ikUK : RIKey := riKey ("uk") 1 2 ("national") ("2024") []

/-- Economy key of the concrete baseline. -/
def bkUK : EconKey := econKey ("uk") 1 ("national") ("2024") []

/-- Economy key of the concrete reform. -/
def rkUK : EconKey := econKey ("uk") 2 ("national") ("2024") []

/-- A cached terminal error reform-impact row. -/
def rowC1 : RIRow Nat := ⟨ikUK, 0, "error", some ("boom")⟩

/-- A state whose store already holds `rowC1`. -/
def stC1 : St Nat Nat := ⟨⟨[], [rowC1], [], [], []⟩, 0, 0, [], []⟩

/-- The final state of the concrete fresh `/compare` run. -/
def stC5 : St Nat Nat :=
  match compare_request envOkN hashId stEmpty ("uk") 2 (some 1) argsNat with
  | Except.ok (_, s) => s
  | Except.error _ => stEmpty

/-- An options mapping, and `o2x` the same mapping with its entries
supplied in the other order. -/
def o1x : List (String × String) := [("a", "1"), ("b", "2")]

/-- The mapping of `o1x` with its two entries in the other order. -/
def o2x : List (String × String) := [("b", "2"), ("a", "1")]

/-- A concrete household: one populated input slot (`age`) and two
requested output slots (`income` for two periods). -/
def hhW : Household Nat :=
  [("people", [("you", [("age", [("2024", some 30)]), ("income", [("2024", none), ("2025", none)])])])]

/-- A per-slot simulation that raises on every 2024 period and returns 7
otherwise. -/
def fW : Slot → Except String Nat :=
  fun s => if s.2.2.2 == "2024" then Except.error ("Infinite value") else Except.ok 7

/-- A store holding the concrete household and a policy row. -/
def dbHH : DB Nat Nat := ⟨[], [], [⟨1, "uk", "defH", "defH", none, VERSION⟩], [⟨"uk", 1, hhW⟩], []⟩


/-- An economy row cached under the options list `o1x`. -/
def rowC6 : EconRow Nat := ⟨econKey ("uk") 1 ("national") ("2024") o1x, 101, "ok", none⟩

/-- A state whose store holds `rowC6`. -/
def stC6 : St Nat Nat := ⟨⟨[rowC6], [], [], [], []⟩, 0, 0, [], []⟩


lemma updateFirst_find?_self {r : Type} {p : r → Bool} {f : r → r}
    (hp : ∀ x, p (f x) = p x) (l : List r) :
    (updateFirst p f l).find? p = (l.find? p).map f := by
  induction l with
  | nil => simp [updateFirst]
  | cons a as ih =>
    by_cases h : p a = true
    · rw [List.find?_cons_of_pos as h]
      simp [updateFirst, h, List.find?_cons_of_pos, hp]
    · rw [List.find?_cons_of_neg as h]
      simp only [updateFirst, if_neg h]
      rw [List.find?_cons_of_neg _ h, ih]

lemma updateFirst_find?_other {r : Type} {p q : r → Bool} {f : r → r}
    (h : ∀ x, p x = true → q x = false ∧ q (f x) = false) (l : List r) :
    (updateFirst p f l).find? q = l.find? q := by
  induction l with
  | nil => rfl
  | cons a as ih =>
    by_cases hpa : p a = true
    · obtain ⟨h1, h2⟩ := h a hpa
      simp only [updateFirst, if_pos hpa]
      rw [List.find?_cons_of_neg as (by simp [h2]), List.find?_cons_of_neg as (by simp [h1])]
    · simp only [updateFirst, if_neg hpa]
      by_cases hqa : q a = true
      · rw [List.find?_cons_of_pos _ hqa, List.find?_cons_of_pos _ hqa]
      · rw [List.find?_cons_of_neg _ hqa, List.find?_cons_of_neg _ hqa, ih]

lemma getEconomy_upsertEconomy_self {α β : Type} (db : DB α β) (k : EconKey) (j : α) (s : String) (m : Option String) :
    (db.upsertEconomy k j s m).getEconomy k = some ⟨k, j, s, m⟩ := by
  unfold DB.upsertEconomy DB.getEconomy
  by_cases h : (db.economy.find? (fun r => r.key == k)).isSome
  · rw [if_pos h]
    show (updateFirst _ _ db.economy).find? _ = _
    obtain ⟨row, hrow⟩ := Option.isSome_iff_exists.mp h
    have hkey : row.key = k := by simpa using List.find?_some hrow
    rw [updateFirst_find?_self (p := fun (r : EconRow α) => r.key == k)
      (f := fun (r : EconRow α) => { r with economy_json := j, status := s, message := m }) (fun x => rfl), hrow]
    cases row
    simp_all
  · rw [if_neg h]
    show (db.economy ++ _).find? _ = _
    have hnone : db.economy.find? (fun r => r.key == k) = none := by
      cases hf : db.economy.find? (fun r => r.key == k) <;> simp_all
    rw [List.find?_append, hnone]
    simp

lemma getEconomy_upsertEconomy_ne {α β : Type} (db : DB α β) {k k' : EconKey} (h : k' ≠ k) (j : α) (s : String) (m : Option String) :
    (db.upsertEconomy k j s m).getEconomy k' = db.getEconomy k' := by
  have hbf : (k == k') = false := beq_eq_false_iff_ne.mpr (fun hc => h hc.symm)
  unfold DB.upsertEconomy DB.getEconomy
  by_cases hs : (db.economy.find? (fun r => r.key == k)).isSome
  · rw [if_pos hs]
    show (updateFirst _ _ db.economy).find? _ = _
    refine updateFirst_find?_other (fun x hx => ?_) db.economy
    have hxk : x.key = k := by simpa using hx
    exact ⟨by rw [hxk]; exact hbf, by rw [show ({ x with economy_json := j, status := s, message := m } : EconRow α).key = x.key from rfl, hxk]; exact hbf⟩
  · rw [if_neg hs]
    show (db.economy ++ _).find? _ = _
    rw [List.find?_append]
    have hone : (([⟨k, j, s, m⟩] : List (EconRow α)).find? (fun r => r.key == k')) = none := by
      simp [List.find?, hbf]
    rw [hone]
    simp

lemma getRI_upsertRI_self {α β : Type} (db : DB α β) (k : RIKey) (j : α) (s : String) (m : Option String) :
    (db.upsertRI k j s m).getRI k = some ⟨k, j, s, m⟩ := by
  unfold DB.upsertRI DB.getRI
  by_cases h : (db.reform_impact.find? (fun r => r.key == k)).isSome
  · rw [if_pos h]
    show (updateFirst _ _ db.reform_impact).find? _ = _
    obtain ⟨row, hrow⟩ := Option.isSome_iff_exists.mp h
    have hkey : row.key = k := by simpa using List.find?_some hrow
    rw [updateFirst_find?_self (p := fun (r : RIRow α) => r.key == k)
      (f := fun (r : RIRow α) => { r with reform_impact_json := j, status := s, message := m }) (fun x => rfl), hrow]
    cases row
    simp_all
  · rw [if_neg h]
    show (db.reform_impact ++ _).find? _ = _
    have hnone : db.reform_impact.find? (fun r => r.key == k) = none := by
      cases hf : db.reform_impact.find? (fun r => r.key == k) <;> simp_all
    rw [List.find?_append, hnone]
    simp

lemma upsertEconomy_reform_impact {α β : Type} (db : DB α β) (k : EconKey) (j : α) (s : String) (m : Option String) :
    (db.upsertEconomy k j s m).reform_impact = db.reform_impact := by
  simp only [DB.upsertEconomy]
  split <;> rfl

lemma upsertRI_economy {α β : Type} (db : DB α β) (k : RIKey) (j : α) (s : String) (m : Option String) :
    (db.upsertRI k j s m).economy = db.economy := by
  simp only [DB.upsertRI]
  split <;> rfl

lemma getRI_upsertEconomy {α β : Type} (db : DB α β) (k : EconKey) (ik : RIKey) (j : α) (s : String) (m : Option String) :
    (db.upsertEconomy k j s m).getRI ik = db.getRI ik := by
  simp [DB.getRI, upsertEconomy_reform_impact]

lemma getEconomy_upsertRI {α β : Type} (db : DB α β) (ik : RIKey) (k : EconKey) (j : α) (s : String) (m : Option String) :
    (db.upsertRI ik j s m).getEconomy k = db.getEconomy k := by
  simp [DB.getEconomy, upsertRI_economy]

lemma ensure_hit {α β : Type} (env : Env α) (st : St α β) {c : String} {pid : Nat} {rg tp : String} {o : List (String × String)} {row : EconRow α}
    (h : st.db.getEconomy (econKey c pid rg tp o) = some row) :
    ensure_economy_computed env st c pid rg tp o = st := by
  unfold ensure_economy_computed
  rw [h]

lemma ensure_fresh_ok {α β : Type} (env : Env α) (st : St α β) {c : String} {pid : Nat} {rg tp : String} {o : List (String × String)} {v : α}
    (h : st.db.getEconomy (econKey c pid rg tp o) = none)
    (hs : env.computeEconomy c pid rg tp o = Except.ok v) :
    ensure_economy_computed env st c pid rg tp o =
      { st with db := st.db.upsertEconomy (econKey c pid rg tp o) v ("ok") none,
                simCalls := st.simCalls + 1,
                econLog := st.econLog ++ [(econKey c pid rg tp o, "ok")] } := by
  unfold ensure_economy_computed
  rw [h, hs]

lemma ensure_fresh_err {α β : Type} (env : Env α) (st : St α β) {c : String} {pid : Nat} {rg tp : String} {o : List (String × String)} {e : String}
    (h : st.db.getEconomy (econKey c pid rg tp o) = none)
    (hs : env.computeEconomy c pid rg tp o = Except.error e) :
    ensure_economy_computed env st c pid rg tp o =
      { st with db := st.db.upsertEconomy (econKey c pid rg tp o) env.emptyObj ("error") (some e),
                simCalls := st.simCalls + 1,
                econLog := st.econLog ++ [(econKey c pid rg tp o, "error")] } := by
  unfold ensure_economy_computed
  rw [h, hs]

lemma ensure_cmpCalls {α β : Type} (env : Env α) (st : St α β) (c : String) (pid : Nat) (rg tp : String) (o : List (String × String)) :
    (ensure_economy_computed env st c pid rg tp o).cmpCalls = st.cmpCalls := by
  unfold ensure_economy_computed
  split
  · rfl
  · split <;> rfl

lemma ensure_riLog {α β : Type} (env : Env α) (st : St α β) (c : String) (pid : Nat) (rg tp : String) (o : List (String × String)) :
    (ensure_economy_computed env st c pid rg tp o).riLog = st.riLog := by
  unfold ensure_economy_computed
  split
  · rfl
  · split <;> rfl

lemma ensure_getRI {α β : Type} (env : Env α) (st : St α β) (c : String) (pid : Nat) (rg tp : String) (o : List (String × String)) (ik : RIKey) :
    (ensure_economy_computed env st c pid rg tp o).db.getRI ik = st.db.getRI ik := by
  unfold ensure_economy_computed
  split
  · rfl
  · split <;> (show (DB.upsertEconomy _ _ _ _ _).getRI _ = _; rw [getRI_upsertEconomy])

lemma ensureBoth_cmpCalls {α β : Type} (env : Env α) (st : St α β) (a : ThreadArgs) :
    (ensureBoth env st a).cmpCalls = st.cmpCalls := by
  unfold ensureBoth
  rw [ensure_cmpCalls, ensure_cmpCalls]

lemma ensureBoth_riLog {α β : Type} (env : Env α) (st : St α β) (a : ThreadArgs) :
    (ensureBoth env st a).riLog = st.riLog := by
  unfold ensureBoth
  rw [ensure_riLog, ensure_riLog]

lemma ensureBoth_getRI {α β : Type} (env : Env α) (st : St α β) (a : ThreadArgs) (ik : RIKey) :
    (ensureBoth env st a).db.getRI ik = st.db.getRI ik := by
  unfold ensureBoth
  rw [ensure_getRI, ensure_getRI]

/-- C7: after a first `ensure_economy_computed` call on a fresh key has
resolved the key to status ok, the stored record is the ok row holding the
simulator's payload, a second call with the same arguments is the
identity on the whole state (so the payload read back is identical after
both calls and the stored record is unchanged by the second call), and
across the two calls the simulator is invoked exactly once for that key. -/
theorem C7_ensure_idempotent {α β : Type} (env : Env α) (st : St α β) (c : String) (pid : Nat) (rg tp : String) (o : List (String × String)) (v : α)
    (hfresh : st.db.getEconomy (econKey c pid rg tp o) = none)
    (hok : env.computeEconomy c pid rg tp o = Except.ok v) :
    (ensure_economy_computed env st c pid rg tp o).db.getEconomy (econKey c pid rg tp o)
        = some ⟨econKey c pid rg tp o, v, "ok", none⟩ ∧
    ensure_economy_computed env (ensure_economy_computed env st c pid rg tp o) c pid rg tp o
        = ensure_economy_computed env st c pid rg tp o ∧
    (ensure_economy_computed env st c pid rg tp o).simCalls = st.simCalls + 1 := by
  have h1 := ensure_fresh_ok env st hfresh hok
  have hget : (ensure_economy_computed env st c pid rg tp o).db.getEconomy (econKey c pid rg tp o)
      = some ⟨econKey c pid rg tp o, v, "ok", none⟩ := by
    rw [h1]
    exact getEconomy_upsertEconomy_self st.db (econKey c pid rg tp o) v ("ok") none
  exact ⟨hget, ensure_hit env _ hget, by rw [h1]⟩

/-- C7 witness: the concrete UK scenario instantiating the idempotence
theorem, hypotheses discharged by evaluation. -/
theorem C7_witness :
    stEmpty.db.getEconomy (econKey ("uk") 1 ("national") ("2024") []) = none ∧
    envOkN.computeEconomy ("uk") 1 ("national") ("2024") [] = Except.ok 101 ∧
    ((ensure_economy_computed envOkN stEmpty ("uk") 1 ("national") ("2024") []).db.getEconomy (econKey ("uk") 1 ("national") ("2024") [])
        = some ⟨econKey ("uk") 1 ("national") ("2024") [], 101, "ok", none⟩ ∧
     ensure_economy_computed envOkN (ensure_economy_computed envOkN stEmpty ("uk") 1 ("national") ("2024") []) ("uk") 1 ("national") ("2024") []
        = ensure_economy_computed envOkN stEmpty ("uk") 1 ("national") ("2024") [] ∧
     (ensure_economy_computed envOkN stEmpty ("uk") 1 ("national") ("2024") []).simCalls = stEmpty.simCalls + 1) :=
  ⟨rfl, rfl, C7_ensure_idempotent envOkN stEmpty ("uk") 1 ("national") ("2024") [] 101 rfl rfl⟩

/-- C1 counterexample: a request whose reform-impact key is cached with
terminal status error (message boom) is answered with the constant dict
`status: computing`, not with the record's status and message, refuting
the claim that a cache hit returns the cached status/result. -/
theorem C1_counterexample :
    compare_request envOkN hashId stC1 ("uk") 2 (some 1) argsNat
      = Except.ok (Resp.statusDict ("computing"), stC1) ∧
    stC1.db.getRI ikUK = some rowC1 ∧
    rowC1.status = "error" ∧
    rowC1.message = some ("boom") ∧
    Resp.statusDict ("computing") ≠ Resp.statusDict (rowC1.status) := by
  refine ⟨rfl, rfl, rfl, rfl, by decide⟩

/-- C1 (amended): on a cache hit of the reform-impact key the handler
performs no recomputation and no write at all — the state, and in
particular a cached error record (terminal, non-retried), is left
entirely unchanged, and no worker thread is spawned — but the response
is the constant dict `status: computing` regardless of the cached
record's status or payload. -/
theorem C1_cache_hit_no_recompute {α β : Type} (env : Env α) (hash_object : String → String) (st : St α β) (c : String) (pid : Nat) (bp : Option Nat) (args : List (String × String)) (rg tp : String) (bpid : Nat) (row : RIRow α)
    (hr : (popKey ("region") args).1 = some rg)
    (ht : (popKey ("time_period") (popKey ("region") args).2).1 = some tp)
    (hc : countries c = true)
    (hb : (match bp with
           | some b => some b
           | none => get_current_law_policy_id hash_object st.db c) = some bpid)
    (hhit : st.db.getRI (riKey c bpid pid rg tp (popKey ("time_period") (popKey ("region") args).2).2) = some row) :
    score_policy_reform_against_baseline env hash_object st c pid bp args
      = Except.ok (Resp.statusDict ("computing"), st, none) ∧
    compare_request env hash_object st c pid bp args
      = Except.ok (Resp.statusDict ("computing"), st) := by
  have hscore : score_policy_reform_against_baseline env hash_object st c pid bp args
      = Except.ok (Resp.statusDict ("computing"), st, none) := by
    unfold score_policy_reform_against_baseline
    simp only [hr, ht, hc, hb, hhit, Bool.true_eq_false, if_false]
  refine ⟨hscore, ?_⟩
  unfold compare_request
  rw [hscore]

/-- C1 witness: the amended cache-hit theorem applied to the concrete
cached-error state. -/
theorem C1_witness :
    stC1.db.getRI (riKey ("uk") 1 2 ("national") ("2024") ((popKey ("time_period") (popKey ("region") argsNat).2).2)) = some rowC1 ∧
    (score_policy_reform_against_baseline envOkN hashId stC1 ("uk") 2 (some 1) argsNat
       = Except.ok (Resp.statusDict ("computing"), stC1, none) ∧
     compare_request envOkN hashId stC1 ("uk") 2 (some 1) argsNat
       = Except.ok (Resp.statusDict ("computing"), stC1)) :=
  ⟨rfl, C1_cache_hit_no_recompute envOkN hashId stC1 ("uk") 2 (some 1) argsNat ("national") ("2024") 1 rowC1 rfl rfl rfl rfl rfl⟩

/-- C2 counterexample: in a concrete resolution whose baseline simulator
raises, the stored dependency-failure message is the source's exact text
"Baseline or reform economy computation failed." (capitalized, with a
final period), which differs from the claimed message string. -/
theorem C2_counterexample :
    (set_reform_impact_data envErrB stEmpty taUK).toOption.map
        (fun s => (s.db.getRI taUK.ikey).map (fun r => (r.status, r.message)))
      = some (some ("error", some ("Baseline or reform economy computation failed."))) ∧
    ("Baseline or reform economy computation failed." : String)
      ≠ "baseline or reform economy computation failed" := by
  refine ⟨rfl, by decide⟩

/-- C2 (amended): whenever at least one of the two prerequisite economy
records read back by the resolver has a terminal status other than ok,
`set_reform_impact_data` returns normally, writes the reform-impact
record with status error and message "Baseline or reform economy
computation failed." (the source's exact text), and the comparator is
invoked zero times in that run. -/
theorem C2_dependency_failure {α β : Type} (env : Env α) (st : St α β) (a : ThreadArgs) (be re : EconRow α)
    (hbe : (ensureBoth env st a).db.getEconomy a.bkey = some be)
    (hre : (ensureBoth env st a).db.getEconomy a.rkey = some re)
    (hnok : ¬(be.status = "ok" ∧ re.status = "ok")) :
    ∃ st2, set_reform_impact_data env st a = Except.ok st2 ∧
      st2.db.getRI a.ikey = some ⟨a.ikey, env.emptyObj, "error", some depFailMsg⟩ ∧
      st2.cmpCalls = st.cmpCalls ∧
      st2.riLog = st.riLog ++ [(a.ikey, "error")] ∧
      depFailMsg = "Baseline or reform economy computation failed." := by
  have hcond : (be.status != "ok" || re.status != "ok") = true := by
    by_cases h1 : be.status = "ok" <;> by_cases h2 : re.status = "ok" <;> simp_all
  refine ⟨{ ensureBoth env st a with
      db := (ensureBoth env st a).db.upsertRI a.ikey env.emptyObj ("error") (some depFailMsg),
      riLog := (ensureBoth env st a).riLog ++ [(a.ikey, "error")] }, ?_, ?_, ?_, ?_, rfl⟩
  · unfold set_reform_impact_data
    simp only [hbe, hre, hcond, if_true]
  · exact getRI_upsertRI_self (ensureBoth env st a).db a.ikey env.emptyObj ("error") (some depFailMsg)
  · exact ensureBoth_cmpCalls env st a
  · show (ensureBoth env st a).riLog ++ [(a.ikey, "error")] = st.riLog ++ [(a.ikey, "error")]
    rw [ensureBoth_riLog]

/-- C2 witness: the amended dependency-failure theorem applied to the
concrete run whose baseline simulator raises. -/
theorem C2_witness :
    (ensureBoth envErrB stEmpty taUK).db.getEconomy taUK.bkey
        = some ⟨taUK.bkey, 0, "error", some ("sim failed")⟩ ∧
    (ensureBoth envErrB stEmpty taUK).db.getEconomy taUK.rkey
        = some ⟨taUK.rkey, 102, "ok", none⟩ ∧
    (∃ st2, set_reform_impact_data envErrB stEmpty taUK = Except.ok st2 ∧
      st2.db.getRI taUK.ikey = some ⟨taUK.ikey, envErrB.emptyObj, "error", some depFailMsg⟩ ∧
      st2.cmpCalls = stEmpty.cmpCalls ∧
      st2.riLog = stEmpty.riLog ++ [(taUK.ikey, "error")] ∧
      depFailMsg = "Baseline or reform economy computation failed.") :=
  ⟨rfl, rfl, C2_dependency_failure envErrB stEmpty taUK ⟨taUK.bkey, 0, "error", some ("sim failed")⟩ ⟨taUK.rkey, 102, "ok", none⟩ rfl rfl (by decide)⟩

/-- C3 counterexample: a comparator exception is not caught anywhere —
with both prerequisite economies ok and a raising comparator, the
exception unwinds out of `set_reform_impact_data` (the model's
`Except.error`), refuting the claim that all Comparator failures are
converted to cache state at the resolver boundary. -/
theorem C3_counterexample :
    set_reform_impact_data envCmpErr stEmpty taUK = Except.error ("comparator boom") := rfl

/-- C3 (amended): simulator failures are caught inside
`ensure_economy_computed` and converted into a terminal error economy
record carrying the exception's message; comparator failures are NOT
caught — when both prerequisites are ok and the comparator raises, the
exception propagates uncaught out of `set_reform_impact_data`, and no
terminal reform-impact write happens in that run. -/
theorem C3_failure_propagation :
    (∀ (α β : Type) (env : Env α) (st : St α β) (c : String) (pid : Nat) (rg tp : String) (o : List (String × String)) (e : String),
      st.db.getEconomy (econKey c pid rg tp o) = none →
      env.computeEconomy c pid rg tp o = Except.error e →
      (ensure_economy_computed env st c pid rg tp o).db.getEconomy (econKey c pid rg tp o)
        = some ⟨econKey c pid rg tp o, env.emptyObj, "error", some e⟩) ∧
    (∀ (α β : Type) (env : Env α) (st : St α β) (a : ThreadArgs) (be re : EconRow α) (e : String),
      (ensureBoth env st a).db.getEconomy a.bkey = some be →
      (ensureBoth env st a).db.getEconomy a.rkey = some re →
      be.status = "ok" → re.status = "ok" →
      env.compareOutputs be.economy_json re.economy_json = Except.error e →
      set_reform_impact_data env st a = Except.error e) := by
  constructor
  · intro α β env st c pid rg tp o e hfresh herr
    rw [ensure_fresh_err env st hfresh herr]
    exact getEconomy_upsertEconomy_self st.db (econKey c pid rg tp o) env.emptyObj ("error") (some e)
  · intro α β env st a be re e hbe hre hbok hrok hcmp
    have hcond : (be.status != "ok" || re.status != "ok") = false := by simp [hbok, hrok]
    unfold set_reform_impact_data
    simp only [hbe, hre, hcond, hcmp]
    simp

/-- C3 witness: both parts of the propagation theorem at concrete inputs:
a raising simulator leaves a terminal error economy record; a raising
comparator escapes the resolver. -/
theorem C3_witness :
    stEmpty.db.getEconomy (econKey ("uk") 1 ("national") ("2024") []) = none ∧
    envErrB.computeEconomy ("uk") 1 ("national") ("2024") [] = Except.error ("sim failed") ∧
    (ensure_economy_computed envErrB stEmpty ("uk") 1 ("national") ("2024") []).db.getEconomy (econKey ("uk") 1 ("national") ("2024") [])
      = some ⟨econKey ("uk") 1 ("national") ("2024") [], envErrB.emptyObj, "error", some ("sim failed")⟩ ∧
    set_reform_impact_data envCmpErr stEmpty taUK = Except.error ("comparator boom") :=
  ⟨rfl, rfl,
   C3_failure_propagation.1 Nat Nat envErrB stEmpty ("uk") 1 ("national") ("2024") [] ("sim failed") rfl rfl,
   C3_failure_propagation.2 Nat Nat envCmpErr stEmpty taUK ⟨taUK.bkey, 101, "ok", none⟩ ⟨taUK.rkey, 102, "ok", none⟩ ("comparator boom") rfl rfl rfl rfl rfl⟩

/-- C4: whenever both prerequisite economy records read back by the
resolver have status ok and the comparator returns normally, the written
reform-impact record has status ok and its payload is exactly the
comparator applied to the two stored economy payloads — a pure function
of exactly those two stored results. -/
theorem C4_dependency_correctness {α β : Type} (env : Env α) (st : St α β) (a : ThreadArgs) (be re : EconRow α) (impact : α)
    (hbe : (ensureBoth env st a).db.getEconomy a.bkey = some be)
    (hre : (ensureBoth env st a).db.getEconomy a.rkey = some re)
    (hbok : be.status = "ok") (hrok : re.status = "ok")
    (hcmp : env.compareOutputs be.economy_json re.economy_json = Except.ok impact) :
    ∃ st2, set_reform_impact_data env st a = Except.ok st2 ∧
      st2.db.getRI a.ikey = some ⟨a.ikey, impact, "ok", none⟩ ∧
      st2.cmpCalls = st.cmpCalls + 1 := by
  have hcond : (be.status != "ok" || re.status != "ok") = false := by simp [hbok, hrok]
  refine ⟨{ ensureBoth env st a with
      db := (ensureBoth env st a).db.upsertRI a.ikey impact ("ok") none,
      cmpCalls := (ensureBoth env st a).cmpCalls + 1,
      riLog := (ensureBoth env st a).riLog ++ [(a.ikey, "ok")] }, ?_, ?_, ?_⟩
  · unfold set_reform_impact_data
    simp only [hbe, hre, hcond, hcmp]
    simp
  · exact getRI_upsertRI_self (ensureBoth env st a).db a.ikey impact ("ok") none
  · show (ensureBoth env st a).cmpCalls + 1 = st.cmpCalls + 1
    rw [ensureBoth_cmpCalls]

/-- C4 witness: the dependency-correctness theorem at the concrete UK
run: both economies ok (payloads 101 and 102), impact 101 * 1000 + 102. -/
theorem C4_witness :
    (ensureBoth envOkN stEmpty taUK).db.getEconomy taUK.bkey = some ⟨taUK.bkey, 101, "ok", none⟩ ∧
    (ensureBoth envOkN stEmpty taUK).db.getEconomy taUK.rkey = some ⟨taUK.rkey, 102, "ok", none⟩ ∧
    envOkN.compareOutputs 101 102 = Except.ok 101102 ∧
    (∃ st2, set_reform_impact_data envOkN stEmpty taUK = Except.ok st2 ∧
      st2.db.getRI taUK.ikey = some ⟨taUK.ikey, 101102, "ok", none⟩ ∧
      st2.cmpCalls = stEmpty.cmpCalls + 1) :=
  ⟨rfl, rfl, rfl,
   C4_dependency_correctness envOkN stEmpty taUK ⟨taUK.bkey, 101, "ok", none⟩ ⟨taUK.rkey, 102, "ok", none⟩ 101102 rfl rfl rfl rfl rfl⟩

/-- C6 counterexample: the options lists `o1x` and `o2x` are equal as
maps (same entries, permuted; every lookup agrees) but serialize to
different `options_json` strings under `json.dumps` (which does not sort
keys), hence produce different economy keys, and a request keyed with
one does not resolve to the row cached under the other. -/
theorem C6_counterexample :
    o1x ≠ o2x ∧
    o1x.Perm o2x ∧
    (∀ k, List.lookup k o1x = List.lookup k o2x) ∧
    dumpsOptions o1x ≠ dumpsOptions o2x ∧
    econKey ("uk") 1 ("national") ("2024") o1x ≠ econKey ("uk") 1 ("national") ("2024") o2x ∧
    (ensure_economy_computed envOkN stEmpty ("uk") 1 ("national") ("2024") o1x).db.getEconomy (econKey ("uk") 1 ("national") ("2024") o2x) = none ∧
    ((ensure_economy_computed envOkN stEmpty ("uk") 1 ("national") ("2024") o1x).db.getEconomy (econKey ("uk") 1 ("national") ("2024") o1x)).isSome = true := by
  refine ⟨by decide, by decide, ?_, by decide, by decide, rfl, rfl⟩
  intro k
  by_cases h1 : k = "a"
  · subst h1; rfl
  · by_cases h2 : k = "b"
    · subst h2; rfl
    · have e1 : (k == "a") = false := beq_eq_false_iff_ne.mpr h1
      have e2 : (k == "b") = false := beq_eq_false_iff_ne.mpr h2
      simp [o1x, o2x, List.lookup, e1, e2]

/-- C6 (amended): the options component of the cache key is the
insertion-ordered `json.dumps` serialization, not a key-sorted one: two
option mappings produce the same economy key exactly when their
serializations coincide (in particular, identically-ordered option lists
always collide to the same key), and any two requests whose options
serialize identically resolve to the same cache row. -/
theorem C6_options_serialization :
    (∀ (c : String) (pid : Nat) (rg tp : String) (o o2 : List (String × String)),
      econKey c pid rg tp o = econKey c pid rg tp o2 ↔ dumpsOptions o = dumpsOptions o2) ∧
    (∀ (α β : Type) (env : Env α) (st : St α β) (c : String) (pid : Nat) (rg tp : String) (o o2 : List (String × String)) (row : EconRow α),
      dumpsOptions o = dumpsOptions o2 →
      st.db.getEconomy (econKey c pid rg tp o) = some row →
      st.db.getEconomy (econKey c pid rg tp o2) = some row ∧
      ensure_economy_computed env st c pid rg tp o2 = st) := by
  have hkey : ∀ (c : String) (pid : Nat) (rg tp : String) (o o2 : List (String × String)),
      econKey c pid rg tp o = econKey c pid rg tp o2 ↔ dumpsOptions o = dumpsOptions o2 := by
    intro c pid rg tp o o2
    simp [econKey, EconKey.mk.injEq]
  refine ⟨hkey, ?_⟩
  intro α β env st c pid rg tp o o2 row hdump hrow
  have hk : econKey c pid rg tp o = econKey c pid rg tp o2 := (hkey c pid rg tp o o2).mpr hdump
  rw [hk] at hrow
  exact ⟨hrow, ensure_hit env st hrow⟩

/-- C6 witness: the amended serialization theorem at the state caching a
row under `o1x`: a second request supplying the options in the identical
order hits the same row and triggers no recomputation. -/
theorem C6_witness :
    dumpsOptions o1x = dumpsOptions o1x ∧
    stC6.db.getEconomy (econKey ("uk") 1 ("national") ("2024") o1x) = some rowC6 ∧
    (stC6.db.getEconomy (econKey ("uk") 1 ("national") ("2024") o1x) = some rowC6 ∧
     ensure_economy_computed envOkN stC6 ("uk") 1 ("national") ("2024") o1x = stC6) :=
  ⟨rfl, rfl, C6_options_serialization.2 Nat Nat envOkN stC6 ("uk") 1 ("national") ("2024") o1x o1x rowC6 rfl rfl⟩

/-- C9: the `set_policy` upsert matches on `policy_hash` alone (not on
`country_id`): two same-country calls with an identical definition do
deduplicate to one row and one id, but a call with the same definition
in a second country UPDATES that same single row, overwriting its
`country_id` — leaving one row (now owned by the second country) instead
of one row per country, and making the first country's lookup fail. -/
theorem C9_policy_dedup_bug :
    (set_policy hashId dbEmpty ("uk") none ("defX") none).2 = Except.ok 1 ∧
    (set_policy hashId (set_policy hashId dbEmpty ("uk") none ("defX") none).1 ("uk") none ("defX") (some ("label2"))).2 = Except.ok 1 ∧
    (set_policy hashId (set_policy hashId dbEmpty ("uk") none ("defX") none).1 ("uk") none ("defX") (some ("label2"))).1.policy
      = [⟨1, "uk", "defX", "defX", some ("label2"), VERSION⟩] ∧
    (set_policy hashId (set_policy hashId dbEmpty ("uk") none ("defX") none).1 ("us") none ("defX") none).2 = Except.ok 1 ∧
    (set_policy hashId (set_policy hashId dbEmpty ("uk") none ("defX") none).1 ("us") none ("defX") none).1.policy
      = [⟨1, "us", "defX", "defX", none, VERSION⟩] ∧
    (set_policy hashId (set_policy hashId dbEmpty ("uk") none ("defX") none).1 ("us") none ("defX") none).1.getPolicyByHash ("uk") ("defX") = none :=
  ⟨rfl, rfl, rfl, rfl, rfl, rfl⟩

/-- C10: when no current-law policy row (hash of the empty reform)
exists for the country, `get_current_law_policy_id` yields no id — the
unguarded `fetchone()[0]` raises — and a compare request omitting
`baseline_policy_id` fails with that raw exception instead of a handled
error response. -/
theorem C10_missing_current_law {α β : Type} (env : Env α) (hash_object : String → String) (st : St α β) (c : String) (pid : Nat) (args : List (String × String)) (rg tp : String)
    (hr : (popKey ("region") args).1 = some rg)
    (ht : (popKey ("time_period") (popKey ("region") args).2).1 = some tp)
    (hc : countries c = true)
    (hno : st.db.policy.find? (fun r => r.country_id == c && r.policy_hash == hash_object emptyObjectJson) = none) :
    get_current_law_policy_id hash_object st.db c = none ∧
    score_policy_reform_against_baseline env hash_object st c pid none args
      = Except.error ("TypeError: NoneType object is not subscriptable") ∧
    compare_request env hash_object st c pid none args
      = Except.error ("TypeError: NoneType object is not subscriptable") := by
  have hcl : get_current_law_policy_id hash_object st.db c = none := by
    unfold get_current_law_policy_id
    rw [hno]
    rfl
  have hscore : score_policy_reform_against_baseline env hash_object st c pid none args
      = Except.error ("TypeError: NoneType object is not subscriptable") := by
    unfold score_policy_reform_against_baseline
    simp only [hr, ht, hc, hcl, Bool.true_eq_false, if_false]
  refine ⟨hcl, hscore, ?_⟩
  unfold compare_request
  rw [hscore]

/-- C10 witness: the missing-current-law theorem at the empty store. -/
theorem C10_witness :
    stEmpty.db.policy.find? (fun r => r.country_id == "uk" && r.policy_hash == hashId emptyObjectJson) = none ∧
    (get_current_law_policy_id hashId stEmpty.db ("uk") = none ∧
     score_policy_reform_against_baseline envOkN hashId stEmpty ("uk") 2 none argsNat
       = Except.error ("TypeError: NoneType object is not subscriptable") ∧
     compare_request envOkN hashId stEmpty ("uk") 2 none argsNat
       = Except.error ("TypeError: NoneType object is not subscriptable")) :=
  ⟨rfl, C10_missing_current_law envOkN hashId stEmpty ("uk") 2 argsNat ("national") ("2024") rfl rfl rfl rfl⟩

lemma lookup_updateA_self {v : Type} (k : String) (f : v → v) (l : List (String × v)) :
    List.lookup k (updateA k f l) = (List.lookup k l).map f := by
  induction l with
  | nil => rfl
  | cons kv rest ih =>
    rcases kv with ⟨a, b⟩
    by_cases h : a = k
    · subst h
      simp [updateA, List.lookup]
    · have e1 : (a == k) = false := beq_eq_false_iff_ne.mpr h
      have e2 : (k == a) = false := beq_eq_false_iff_ne.mpr (fun hh => h hh.symm)
      simp [updateA, List.lookup, e1, e2, ih]

lemma lookup_updateA_ne {v : Type} {k q : String} (hne : q ≠ k) (f : v → v) (l : List (String × v)) :
    List.lookup q (updateA k f l) = List.lookup q l := by
  induction l with
  | nil => rfl
  | cons kv rest ih =>
    rcases kv with ⟨a, b⟩
    by_cases h : a = k
    · subst h
      have e : (q == a) = false := beq_eq_false_iff_ne.mpr hne
      simp [updateA, List.lookup, e]
    · have e1 : (a == k) = false := beq_eq_false_iff_ne.mpr h
      by_cases h2 : q = a
      · subst h2
        simp [updateA, List.lookup, e1]
      · have e2 : (q == a) = false := beq_eq_false_iff_ne.mpr h2
        simp [updateA, List.lookup, e1, e2, ih]

lemma getSlot_setSlot_self {β : Type} (h : Household β) (s : Slot) (v : β) :
    getSlot (setSlot h s v) s = (getSlot h s).map (fun _ => some v) := by
  rcases s with ⟨a, b, c, d⟩
  simp only [getSlot, setSlot]
  rw [lookup_updateA_self]
  cases h1 : List.lookup a h with
  | none => rfl
  | some l2 =>
    simp only [Option.map_some', Option.some_bind]
    rw [lookup_updateA_self]
    cases h2 : List.lookup b l2 with
    | none => rfl
    | some l3 =>
      simp only [Option.map_some', Option.some_bind]
      rw [lookup_updateA_self]
      cases h3 : List.lookup c l3 with
      | none => rfl
      | some l4 =>
        simp only [Option.map_some', Option.some_bind]
        rw [lookup_updateA_self]

lemma getSlot_setSlot_ne {β : Type} (h : Household β) {s t : Slot} (hne : s ≠ t) (v : β) :
    getSlot (setSlot h s v) t = getSlot h t := by
  rcases s with ⟨a, b, c, d⟩
  rcases t with ⟨a2, b2, c2, d2⟩
  simp only [getSlot, setSlot]
  by_cases h1 : a2 = a
  · subst h1
    rw [lookup_updateA_self]
    cases e1 : List.lookup a2 h with
    | none => rfl
    | some l2 =>
      simp only [Option.map_some', Option.some_bind]
      by_cases h2 : b2 = b
      · subst h2
        rw [lookup_updateA_self]
        cases e2 : List.lookup b2 l2 with
        | none => rfl
        | some l3 =>
          simp only [Option.map_some', Option.some_bind]
          by_cases h3 : c2 = c
          · subst h3
            rw [lookup_updateA_self]
            cases e3 : List.lookup c2 l3 with
            | none => rfl
            | some l4 =>
              simp only [Option.map_some', Option.some_bind]
              have h4 : d2 ≠ d := by
                intro hd
                subst hd
                exact hne rfl
              rw [lookup_updateA_ne h4]
          · rw [lookup_updateA_ne h3]
      · rw [lookup_updateA_ne h2]
  · rw [lookup_updateA_ne h1]

lemma calcFold_error_slot {β : Type} (f : Slot → Except String β) (todo : List Slot) (acc : Household β) (s : Slot) (e : String) (hf : f s = Except.error e) :
    getSlot (todo.foldl (fun acc2 t => match f t with | Except.ok v => setSlot acc2 t v | Except.error _ => acc2) acc) s
      = getSlot acc s := by
  induction todo generalizing acc with
  | nil => rfl
  | cons t rest ih =>
    simp only [List.foldl_cons]
    cases hft : f t with
    | error e2 =>
      simp only [hft]
      exact ih acc
    | ok w =>
      have hts : t ≠ s := by
        intro hh
        rw [hh, hf] at hft
        exact Except.noConfusion hft
      simp only [hft]
      rw [ih (setSlot acc t w)]
      exact getSlot_setSlot_ne acc hts w

lemma calcFold_ok_preserved {β : Type} (f : Slot → Except String β) (todo : List Slot) (acc : Household β) (s : Slot) (v : β) (hf : f s = Except.ok v) (hacc : getSlot acc s = some (some v)) :
    getSlot (todo.foldl (fun acc2 t => match f t with | Except.ok w => setSlot acc2 t w | Except.error _ => acc2) acc) s
      = some (some v) := by
  induction todo generalizing acc with
  | nil => exact hacc
  | cons t rest ih =>
    simp only [List.foldl_cons]
    cases hft : f t with
    | error e2 =>
      simp only [hft]
      exact ih acc hacc
    | ok w =>
      simp only [hft]
      by_cases hts : t = s
      · subst hts
        have hwv : w = v := by
          have := hft.symm.trans hf
          injection this
        subst hwv
        apply ih
        rw [getSlot_setSlot_self, hacc]
        rfl
      · apply ih
        rw [getSlot_setSlot_ne acc hts w]
        exact hacc

lemma calcFold_ok_slot {β : Type} (f : Slot → Except String β) (todo : List Slot) (acc : Household β) (s : Slot) (v : β) (hf : f s = Except.ok v) (hmem : s ∈ todo) (hacc : getSlot acc s ≠ none) :
    getSlot (todo.foldl (fun acc2 t => match f t with | Except.ok w => setSlot acc2 t w | Except.error _ => acc2) acc) s
      = some (some v) := by
  induction todo generalizing acc with
  | nil => cases hmem
  | cons t rest ih =>
    simp only [List.foldl_cons]
    by_cases hts : t = s
    · subst hts
      simp only [hf]
      apply calcFold_ok_preserved f rest _ _ v hf
      rw [getSlot_setSlot_self]
      cases hg : getSlot acc t with
      | none => exact absurd hg hacc
      | some w => rfl
    · have hmem2 : s ∈ rest := by
        rcases List.mem_cons.mp hmem with h1 | h1
        · exact absurd h1.symm hts
        · exact h1
      cases hft : f t with
      | error e2 =>
        simp only [hft]
        exact ih acc hmem2 hacc
      | ok w =>
        simp only [hft]
        refine ih _ hmem2 ?_
        rw [getSlot_setSlot_ne acc hts w]
        exact hacc

/-- C8: in the synchronous household computation, a raising slot is
skipped in place: the failing requested slot is left unset in the
result, every other requested slot is still attempted (an ok slot
receives exactly its computed value, regardless of the failure), and
`get_household_under_policy` still stores the merged household and
returns it with status ok. -/
theorem C8_best_effort_fill {β : Type} (f : Slot → Except String β) (h : Household β) (s : Slot) (e : String)
    (hfs : f s = Except.error e) (hslot : getSlot h s = some none) :
    getSlot (calculate f h) s = some none ∧
    (∀ t v, f t = Except.ok v → t ∈ get_requested_computations h → getSlot h t = some none →
       getSlot (calculate f h) t = some (some v)) ∧
    (∀ (α : Type) (sim : String → Slot → Except String β) (db : DB α β) (c : String) (hid pid : Nat) (hrow : HouseholdRow β) (prow : PolicyRow),
       db.getCH ⟨c, hid, pid, VERSION⟩ = none →
       db.getHousehold c hid = some hrow →
       hrow.household_json = h →
       db.getPolicyById c pid = some prow →
       sim prow.policy_json = f →
       get_household_under_policy sim db c hid pid =
         (db.upsertCH ⟨c, hid, pid, VERSION⟩ (calculate f h), HResult.ok (calculate f h))) := by
  refine ⟨?_, ?_, ?_⟩
  · unfold calculate
    rw [calcFold_error_slot f _ h s e hfs]
    exact hslot
  · intro t v hft hmem hunset
    unfold calculate
    exact calcFold_ok_slot f _ h t v hft hmem (by rw [hunset]; exact fun hc => Option.noConfusion hc)
  · intro α sim db c hid pid hrow prow hch hhh hjson hpol hsim
    unfold get_household_under_policy
    simp only [hch, hhh, hpol, hjson, hsim]

/-- C8 witness: the concrete household `hhW` under the per-slot
simulation `fW` that raises for period 2024: the 2024 income slot stays
unset, the 2025 income slot is still computed (value 7), and the store
path returns ok with the merged household. -/
theorem C8_witness :
    fW ("people", "you", "income", "2024") = Except.error ("Infinite value") ∧
    getSlot hhW ("people", "you", "income", "2024") = some none ∧
    getSlot (calculate fW hhW) ("people", "you", "income", "2024") = some none ∧
    getSlot (calculate fW hhW) ("people", "you", "income", "2025") = some (some 7) ∧
    get_household_under_policy (fun _ => fW) dbHH ("uk") 1 1 =
      (dbHH.upsertCH ⟨"uk", 1, 1, VERSION⟩ (calculate fW hhW), HResult.ok (calculate fW hhW)) :=
  ⟨rfl, rfl,
   (C8_best_effort_fill fW hhW ("people", "you", "income", "2024") ("Infinite value") rfl rfl).1,
   (C8_best_effort_fill fW hhW ("people", "you", "income", "2024") ("Infinite value") rfl rfl).2.1
     ("people", "you", "income", "2025") 7 rfl (by decide) rfl,
   (C8_best_effort_fill fW hhW ("people", "you", "income", "2024") ("Infinite value") rfl rfl).2.2
     Nat (fun _ => fW) dbHH ("uk") 1 1 ⟨"uk", 1, hhW⟩ ⟨1, "uk", "defH", "defH", none, VERSION⟩ rfl rfl rfl rfl rfl⟩

lemma ensure_fresh_spec {α β : Type} (env : Env α) (st : St α β) (c : String) (pid : Nat) (rg tp : String) (o : List (String × String))
    (h : st.db.getEconomy (econKey c pid rg tp o) = none) :
    ∃ t1, (t1 = "ok" ∨ t1 = "error") ∧
      (ensure_economy_computed env st c pid rg tp o).econLog = st.econLog ++ [(econKey c pid rg tp o, t1)] ∧
      (∃ row1, (ensure_economy_computed env st c pid rg tp o).db.getEconomy (econKey c pid rg tp o) = some row1 ∧ row1.status = t1) ∧
      (∀ k2, k2 ≠ econKey c pid rg tp o → (ensure_economy_computed env st c pid rg tp o).db.getEconomy k2 = st.db.getEconomy k2) ∧
      (ensure_economy_computed env st c pid rg tp o).riLog = st.riLog ∧
      (ensure_economy_computed env st c pid rg tp o).cmpCalls = st.cmpCalls ∧
      (ensure_economy_computed env st c pid rg tp o).simCalls = st.simCalls + 1 := by
  cases hc : env.computeEconomy c pid rg tp o with
  | ok v =>
    rw [ensure_fresh_ok env st h hc]
    refine ⟨"ok", Or.inl rfl, rfl, ⟨_, getEconomy_upsertEconomy_self st.db (econKey c pid rg tp o) v ("ok") none, rfl⟩, ?_, rfl, rfl, rfl⟩
    intro k2 hk2
    exact getEconomy_upsertEconomy_ne st.db hk2 v ("ok") none
  | error e =>
    rw [ensure_fresh_err env st h hc]
    refine ⟨"error", Or.inr rfl, rfl, ⟨_, getEconomy_upsertEconomy_self st.db (econKey c pid rg tp o) env.emptyObj ("error") (some e), rfl⟩, ?_, rfl, rfl, rfl⟩
    intro k2 hk2
    exact getEconomy_upsertEconomy_ne st.db hk2 env.emptyObj ("error") (some e)

lemma srid_run_log {α β : Type} (env : Env α) (st : St α β) (a : ThreadArgs) (st2 : St α β)
    (hfb : st.db.getEconomy a.bkey = none) (hfr : st.db.getEconomy a.rkey = none)
    (hne : a.bkey ≠ a.rkey)
    (hrun : set_reform_impact_data env st a = Except.ok st2) :
    ∃ t1 t2 t3, (t1 = "ok" ∨ t1 = "error") ∧ (t2 = "ok" ∨ t2 = "error") ∧ (t3 = "ok" ∨ t3 = "error") ∧
      st2.econLog = st.econLog ++ [(a.bkey, t1), (a.rkey, t2)] ∧
      st2.riLog = st.riLog ++ [(a.ikey, t3)] ∧
      st2.simCalls = st.simCalls + 2 := by
  have hkb : a.bkey = econKey a.country_id a.baseline_policy_id a.region a.time_period a.options := rfl
  have hkr : a.rkey = econKey a.country_id a.policy_id a.region a.time_period a.options := rfl
  obtain ⟨t1, ht1, hlog1, ⟨row1, hrow1, hstat1⟩, hpre1, hril1, hcmp1, hsim1⟩ :=
    ensure_fresh_spec env st a.country_id a.baseline_policy_id a.region a.time_period a.options (hkb ▸ hfb)
  have hfr1 : (ensure_economy_computed env st a.country_id a.baseline_policy_id a.region a.time_period a.options).db.getEconomy
      (econKey a.country_id a.policy_id a.region a.time_period a.options) = none := by
    rw [hpre1 _ (hkr ▸ hkb ▸ hne.symm)]
    exact hkr ▸ hfr
  obtain ⟨t2, ht2, hlog2, ⟨row2, hrow2, hstat2⟩, hpre2, hril2, hcmp2, hsim2⟩ :=
    ensure_fresh_spec env (ensure_economy_computed env st a.country_id a.baseline_policy_id a.region a.time_period a.options)
      a.country_id a.policy_id a.region a.time_period a.options hfr1
  have hrow1b : (ensure_economy_computed env (ensure_economy_computed env st a.country_id a.baseline_policy_id a.region a.time_period a.options)
      a.country_id a.policy_id a.region a.time_period a.options).db.getEconomy
      (econKey a.country_id a.baseline_policy_id a.region a.time_period a.options) = some row1 := by
    rw [hpre2 _ (hkb ▸ hkr ▸ hne)]
    exact hrow1
  unfold set_reform_impact_data ensureBoth at hrun
  rw [hkb, hkr] at hrun
  rw [hrow1b, hrow2] at hrun
  refine ⟨t1, t2, ?_⟩
  cases hcond : (row1.status != "ok" || row2.status != "ok") with
  | true =>
    simp only [hcond] at hrun
    simp only [if_true] at hrun
    simp at hrun
    refine ⟨"error", ht1, ht2, Or.inr rfl, ?_, ?_, ?_⟩
    · rw [← hrun]
      show (ensure_economy_computed env _ _ _ _ _ _).econLog = _
      rw [hlog2, hlog1, List.append_assoc]
      rw [hkb, hkr]
      rfl
    · rw [← hrun]
      show (ensure_economy_computed env _ _ _ _ _ _).riLog ++ _ = _
      rw [hril2, hril1]
    · rw [← hrun]
      show (ensure_economy_computed env _ _ _ _ _ _).simCalls = _
      rw [hsim2, hsim1]
  | false =>
    cases hcmp : env.compareOutputs row1.economy_json row2.economy_json with
    | error e =>
      simp only [hcond] at hrun
      simp only [hcmp] at hrun
      simp at hrun
    | ok i =>
      simp only [hcond] at hrun
      simp only [hcmp] at hrun
      simp at hrun
      refine ⟨"ok", ht1, ht2, Or.inl rfl, ?_, ?_, ?_⟩
      · rw [← hrun]
        show (ensure_economy_computed env _ _ _ _ _ _).econLog = _
        rw [hlog2, hlog1, List.append_assoc]
        rw [hkb, hkr]
        rfl
      · rw [← hrun]
        show (ensure_economy_computed env _ _ _ _ _ _).riLog ++ _ = _
        rw [hril2, hril1]
      · rw [← hrun]
        show (ensure_economy_computed env _ _ _ _ _ _).simCalls = _
        rw [hsim2, hsim1]

/-- C5 counterexample: in a complete fresh `/compare` run both economy
records reach terminal status ok, yet each economy key is written
exactly once, with its terminal status directly and no computing
placeholder — refuting the claim that every asynchronously computed
record (economy included) is written exactly twice. -/
theorem C5_counterexample :
    compare_request envOkN hashId stEmpty ("uk") 2 (some 1) argsNat
      = Except.ok (Resp.statusDict ("computing"), stC5) ∧
    (stC5.db.getEconomy bkUK).map (fun r => r.status) = some ("ok") ∧
    stC5.econLog = [(bkUK, "ok"), (rkUK, "ok")] ∧
    (stC5.econLog.filter (fun x => x.1 == bkUK)).length = 1 ∧
    ((stC5.econLog.filter (fun x => x.1 == bkUK)).length = 2 → False) ∧
    stC5.econLog.all (fun x => x.2 != "computing") = true := by
  refine ⟨rfl, rfl, rfl, rfl, by decide, rfl⟩

/-- C5 (amended): in any `/compare` run that starts from a state with
the reform-impact key and both economy keys absent and that completes,
the reform-impact record is written exactly twice — the computing
placeholder insert, then one terminal (ok or error) update, in that
order — while each economy record is written exactly once, directly
with its terminal status and with no computing placeholder; the
simulator runs once per economy key. -/
theorem C5_write_discipline {α β : Type} (env : Env α) (hash_object : String → String) (st : St α β) (c : String) (pid : Nat) (bp : Option Nat) (args : List (String × String)) (rg tp : String) (bpid : Nat) (o : List (String × String)) (st2 : St α β)
    (hr : (popKey ("region") args).1 = some rg)
    (ht : (popKey ("time_period") (popKey ("region") args).2).1 = some tp)
    (ho : o = (popKey ("time_period") (popKey ("region") args).2).2)
    (hc : countries c = true)
    (hb : (match bp with
           | some b => some b
           | none => get_current_law_policy_id hash_object st.db c) = some bpid)
    (hpp : bpid ≠ pid)
    (hri : st.db.getRI (riKey c bpid pid rg tp o) = none)
    (hfb : st.db.getEconomy (econKey c bpid rg tp o) = none)
    (hfr : st.db.getEconomy (econKey c pid rg tp o) = none)
    (hrun : compare_request env hash_object st c pid bp args = Except.ok (Resp.statusDict ("computing"), st2)) :
    ∃ t1 t2 t3, (t1 = "ok" ∨ t1 = "error") ∧ (t2 = "ok" ∨ t2 = "error") ∧ (t3 = "ok" ∨ t3 = "error") ∧
      st2.econLog = st.econLog ++ [(econKey c bpid rg tp o, t1), (econKey c pid rg tp o, t2)] ∧
      st2.riLog = st.riLog ++ [(riKey c bpid pid rg tp o, "computing"), (riKey c bpid pid rg tp o, t3)] ∧
      st2.simCalls = st.simCalls + 2 := by
  subst ho
  have hscore : score_policy_reform_against_baseline env hash_object st c pid bp args
      = Except.ok (Resp.statusDict ("computing"),
          { st with
            db := st.db.upsertRI (riKey c bpid pid rg tp ((popKey ("time_period") (popKey ("region") args).2).2)) env.emptyObj ("computing") none,
            riLog := st.riLog ++ [(riKey c bpid pid rg tp ((popKey ("time_period") (popKey ("region") args).2).2), "computing")] },
          some ⟨bpid, pid, c, rg, tp, (popKey ("time_period") (popKey ("region") args).2).2⟩) := by
    unfold score_policy_reform_against_baseline
    simp only [hr, ht, hc, hb, hri, Bool.true_eq_false, if_false]
  unfold compare_request at hrun
  rw [hscore] at hrun
  dsimp only at hrun
  cases hsrid : set_reform_impact_data env
      { st with
        db := st.db.upsertRI (riKey c bpid pid rg tp ((popKey ("time_period") (popKey ("region") args).2).2)) env.emptyObj ("computing") none,
        riLog := st.riLog ++ [(riKey c bpid pid rg tp ((popKey ("time_period") (popKey ("region") args).2).2), "computing")] }
      ⟨bpid, pid, c, rg, tp, (popKey ("time_period") (popKey ("region") args).2).2⟩ with
  | error e =>
    rw [hsrid] at hrun
    exact Except.noConfusion hrun
  | ok s =>
    rw [hsrid] at hrun
    simp only [Except.ok.injEq, Prod.mk.injEq] at hrun
    obtain ⟨-, hs⟩ := hrun
    subst hs
    have hnek : (⟨bpid, pid, c, rg, tp, (popKey ("time_period") (popKey ("region") args).2).2⟩ : ThreadArgs).bkey
        ≠ (⟨bpid, pid, c, rg, tp, (popKey ("time_period") (popKey ("region") args).2).2⟩ : ThreadArgs).rkey := by
      intro heq
      exact hpp (congrArg EconKey.policy_id heq)
    have hfb1 : ({ st with
        db := st.db.upsertRI (riKey c bpid pid rg tp ((popKey ("time_period") (popKey ("region") args).2).2)) env.emptyObj ("computing") none,
        riLog := st.riLog ++ [(riKey c bpid pid rg tp ((popKey ("time_period") (popKey ("region") args).2).2), "computing")] } : St α β).db.getEconomy
        (⟨bpid, pid, c, rg, tp, (popKey ("time_period") (popKey ("region") args).2).2⟩ : ThreadArgs).bkey = none := by
      show (DB.upsertRI _ _ _ _ _).getEconomy _ = none
      rw [getEconomy_upsertRI]
      exact hfb
    have hfr1 : ({ st with
        db := st.db.upsertRI (riKey c bpid pid rg tp ((popKey ("time_period") (popKey ("region") args).2).2)) env.emptyObj ("computing") none,
        riLog := st.riLog ++ [(riKey c bpid pid rg tp ((popKey ("time_period") (popKey ("region") args).2).2), "computing")] } : St α β).db.getEconomy
        (⟨bpid, pid, c, rg, tp, (popKey ("time_period") (popKey ("region") args).2).2⟩ : ThreadArgs).rkey = none := by
      show (DB.upsertRI _ _ _ _ _).getEconomy _ = none
      rw [getEconomy_upsertRI]
      exact hfr
    obtain ⟨t1, t2, t3, ht1, ht2, ht3, hlog, hril, hsim⟩ :=
      srid_run_log env _ _ _ hfb1 hfr1 hnek hsrid
    refine ⟨t1, t2, t3, ht1, ht2, ht3, ?_, ?_, ?_⟩
    · exact hlog
    · rw [hril]
      show (st.riLog ++ _) ++ _ = _
      rw [List.append_assoc]
      rfl
    · exact hsim

/-- C5 witness: the write-discipline theorem at the concrete fresh UK
run, all hypotheses discharged by evaluation. -/
theorem C5_witness :
    stEmpty.db.getRI (riKey ("uk") 1 2 ("national") ("2024") []) = none ∧
    compare_request envOkN hashId stEmpty ("uk") 2 (some 1) argsNat
      = Except.ok (Resp.statusDict ("computing"), stC5) ∧
    (∃ t1 t2 t3, (t1 = "ok" ∨ t1 = "error") ∧ (t2 = "ok" ∨ t2 = "error") ∧ (t3 = "ok" ∨ t3 = "error") ∧
      stC5.econLog = stEmpty.econLog ++ [(econKey ("uk") 1 ("national") ("2024") [], t1), (econKey ("uk") 2 ("national") ("2024") [], t2)] ∧
      stC5.riLog = stEmpty.riLog ++ [(riKey ("uk") 1 2 ("national") ("2024") [], "computing"), (riKey ("uk") 1 2 ("national") ("2024") [], t3)] ∧
      stC5.simCalls = stEmpty.simCalls + 2) :=
  ⟨rfl, rfl,
   C5_write_discipline envOkN hashId stEmpty ("uk") 2 (some 1) argsNat ("national") ("2024") 1 [] stC5
     rfl rfl rfl rfl rfl (by decide) rfl rfl rfl rfl⟩
